import Mathlib

/-!
Verification development for the giveaway cog (`src/cogs/giveaway.py`).

The cog keeps two MongoDB collections: `giveaways` (one document per giveaway,
unique index on `message_id`) and `participants` (one document per
`(message_id, user_id)` pair, unique compound index).  The operations embedded
here are the ones with state-machine content: `end_giveaway`, the
`check_giveaways` scheduler tick, the two raw-reaction listeners, and
`reroll_giveaway`.  Message ids, channel ids and user ids are modelled as `Nat`;
statuses are the literal strings `"active"` / `"ended"` the code stores.
Python's `random.sample` is modelled with an injected list of random draws.
-/

namespace GiveawayBot

/-- Constant `REACTION_EMOJI` (line 18 of the source): the emoji whose
reactions count as giveaway entries. -/
def REACTION_EMOJI : String := "<:sukoon_taaada:1324071825910792223>"

/-- One document of the `giveaways` collection, exactly the fields written by
`start_giveaway` (lines 117-126).  `winners` is the requested winner count, an
integer; it is never rewritten after creation.  No other field is ever written
by any code path - in particular, no list of selected winners is ever stored on
the document. -/
structure GiveawayDoc where
  message_id : Nat
  channel_id : Nat
  end_time : Nat
  winners : Nat
  prize : String
  status : String
  host_id : Nat
  created_at : Nat
  deriving DecidableEq, Repr

/-- The database state: the `giveaways` collection and the `participants`
collection, whose documents are `(message_id, user_id)` pairs. -/
structure Store where
  giveaways : List GiveawayDoc
  participants : List (Nat × Nat)
  deriving DecidableEq, Repr

/-- The external world the cog talks to: the bot's own user id
(`self.bot.user.id`), which channels `bot.get_channel` resolves, and which
messages `channel.fetch_message` finds (a `false` here models
`discord.NotFound`). -/
structure Env where
  botId : Nat
  channelExists : Nat → Bool
  messageExists : Nat → Bool

/-- Announcement traffic emitted by `end_giveaway`: the embed edit of the
original message (line 187) and the congratulatory reply (lines 189-191). -/
inductive Effect where
  | edit (message_id : Nat)
  | reply (message_id : Nat) (winners : List Nat)
  deriving DecidableEq, Repr

/-- Model of Python's `random.sample(l, k)`, sampling without replacement, with
the randomness injected as a list of draws: each step picks the element at
index `r % length`, removes it, and recurses.  Both call sites invoke it with
`k = min(len(l), count)`, so `k ≤ len(l)` always holds there, but the model is
total. -/
def sample : List Nat → Nat → List Nat → List Nat
  | _, 0, _ => []
  | [], _+1, _ => []
  | a :: l, k+1, rand =>
      (a :: l).getD (rand.headD 0 % (a :: l).length) 0 ::
        sample ((a :: l).eraseIdx (rand.headD 0 % (a :: l).length)) k rand.tail

/-- Mongo `update_one` with filter `message_id = mid` and update
`$set status := "ended"` (lines 156-159 and 194-197): rewrites the status of
the first matching document; the unique index on `message_id` means at most one
document can match in practice. -/
def updateStatusFirst : List GiveawayDoc → Nat → List GiveawayDoc
  | [], _ => []
  | g :: gs, mid =>
      if g.message_id == mid then { g with status := "ended" } :: gs
      else g :: updateStatusFirst gs mid

/-- The participant snapshot both `end_giveaway` (lines 163-168) and
`reroll_giveaway` (lines 288-293) compute: every `participants` document for
the message id, keeping only user ids different from the bot's own, projected
to the user id.  This is the spec's `ListEntries`. -/
def list_entries (env : Env) (mid : Nat) (s : Store) : List Nat :=
  ((s.participants.filter (fun p => p.1 == mid)).filter
      (fun p => p.2 != env.botId)).map Prod.snd

/-- Line 170 of the source: `random.sample(valid, min(len(valid), count)) if
valid else []`, over the participant snapshot for `mid`. -/
def end_winners_of (env : Env) (rand : List Nat) (mid : Nat) (s : Store)
    (count : Nat) : List Nat :=
  if (list_entries env mid s).isEmpty then []
  else sample (list_entries env mid s)
    (min (list_entries env mid s).length count) rand

/-- The winner-selection pattern shared by `end_giveaway` (lines 168-170, empty
exclusion) and `reroll_giveaway` (lines 304-311, excluding the computed
previous-winner ids): drop the excluded ids from the candidate pool, return no
winners on an empty pool, otherwise sample `min(|pool|, count)` elements
without replacement.  This is the spec's `SelectWinners`. -/
def selectWinners (candidates : List Nat) (count : Nat) (exclude : List Nat)
    (rand : List Nat) : List Nat :=
  if (candidates.filter (fun u => !exclude.contains u)).isEmpty then []
  else sample (candidates.filter (fun u => !exclude.contains u))
    (min (candidates.filter (fun u => !exclude.contains u)).length count) rand

/-- Everything `end_giveaway` produces that later code can observe: the store
after the call, the announcement traffic, and the winners that were selected
(observable through the reply message). -/
structure EndResult where
  store : Store
  effects : List Effect
  winners : List Nat
  deriving DecidableEq, Repr

/-- `end_giveaway(message_id)`, lines 137-200.  Looks up the giveaway with this
message id and status `"active"` and silently returns when there is none; when
the channel is gone it also silently returns; when the original message raises
`discord.NotFound` it sets the status to `"ended"` and returns; otherwise it
selects winners from the participant snapshot, edits the announcement, replies
when winners exist, and sets the status to `"ended"`.  The only store write on
any path is the status update - the selected winners are never persisted. -/
def end_giveaway (env : Env) (rand : List Nat) (mid : Nat) (s : Store) :
    EndResult :=
  match s.giveaways.find? (fun g => g.message_id == mid && g.status == "active") with
  | none => ⟨s, [], []⟩
  | some g =>
      if !env.channelExists g.channel_id then ⟨s, [], []⟩
      else if !env.messageExists mid then
        ⟨{ s with giveaways := updateStatusFirst s.giveaways mid }, [], []⟩
      else
        ⟨{ s with giveaways := updateStatusFirst s.giveaways mid },
          Effect.edit mid ::
            (if (end_winners_of env rand mid s g.winners).isEmpty then []
             else [Effect.reply mid (end_winners_of env rand mid s g.winners)]),
          end_winners_of env rand mid s g.winners⟩

/-- A raw reaction event: the emoji rendered as a string, the message id, and
the reacting user's id. -/
structure Payload where
  emoji : String
  message_id : Nat
  user_id : Nat
  deriving DecidableEq, Repr

/-- `on_raw_reaction_add`, lines 225-241: ignores wrong emoji and the bot's own
reactions, then upserts the `(message_id, user_id)` participant document.  The
giveaway's existence and status are never consulted.  An upsert over an
existing key `$set`s the same two fields, leaving the document unchanged; over
an absent key it inserts the document. -/
def on_raw_reaction_add (env : Env) (p : Payload) (s : Store) : Store :=
  if p.emoji != REACTION_EMOJI || p.user_id == env.botId then s
  else if (p.message_id, p.user_id) ∈ s.participants then s
  else { s with participants := s.participants ++ [(p.message_id, p.user_id)] }

/-- `on_raw_reaction_remove`, lines 243-252: ignores wrong emoji and the bot's
own reactions, then `delete_one` removes the first matching participant
document - a no-op when no document matches.  The giveaway's existence and
status are never consulted. -/
def on_raw_reaction_remove (env : Env) (p : Payload) (s : Store) : Store :=
  if p.emoji != REACTION_EMOJI || p.user_id == env.botId then s
  else { s with participants := s.participants.erase (p.message_id, p.user_id) }

/-- The `previous_winners` query of `reroll_giveaway` (lines 296-301): the
participant documents for this message whose user id occurs in `winners_list`,
projected to user ids. -/
def previous_winner_ids (mid : Nat) (winners_list : List Nat) (s : Store) :
    List Nat :=
  (s.participants.filter (fun p => p.1 == mid && winners_list.contains p.2)).map
    Prod.snd

/-- `reroll_giveaway`, lines 254-330.  The three Booleans model the platform
checks before the database is touched: the command must reply to some message
(`hasRef`), the original message must fetch successfully (`origOk`), and it
must carry an embed with an author (`hasEmbed`).  The stored giveaway must have
status `"ended"`.  `giveaway['winners']` is the integer winner count stored at
creation and never rewritten, so the `isinstance` guard of lines 283-285 always
wraps it into the one-element list `[g.winners]`; the previous-winners query
therefore matches exactly the participants whose user id equals that count.
Returns the freshly sampled winners, or `none` on any early exit.  No store
write happens on any path. -/
def reroll_giveaway (env : Env) (rand : List Nat) (hasRef origOk hasEmbed : Bool)
    (mid : Nat) (s : Store) : Option (List Nat) :=
  if !hasRef then none
  else if !origOk then none
  else if !hasEmbed then none
  else
    match s.giveaways.find? (fun g => g.message_id == mid && g.status == "ended") with
    | none => none
    | some g =>
        if ((list_entries env mid s).filter
            (fun u => !(previous_winner_ids mid [g.winners] s).contains u)).isEmpty
        then none
        else some (sample
          ((list_entries env mid s).filter
            (fun u => !(previous_winner_ids mid [g.winners] s).contains u))
          (min ((list_entries env mid s).filter
            (fun u => !(previous_winner_ids mid [g.winners] s).contains u)).length
            g.winners)
          rand)

/-- Cog-level state: the store together with the `_checking` in-progress flag
(line 53). -/
structure CogState where
  store : Store
  checking : Bool

/-- The loop of lines 219-220: ends each listed giveaway in turn, threading the
store and drawing per-event randomness `rands i`, collecting the announcement
traffic. -/
def runEndAll (env : Env) (rands : Nat → List Nat) :
    List Nat → Nat → Store → Store × List Effect
  | [], _, s => (s, [])
  | mid :: rest, i, s =>
      (
        (runEndAll env rands rest (i+1) (end_giveaway env (rands i) mid s).store).1,
        (end_giveaway env (rands i) mid s).effects ++
          (runEndAll env rands rest (i+1) (end_giveaway env (rands i) mid s).store).2)

/-- One `check_giveaways` tick, lines 202-223.  Returns immediately when the
`_checking` flag is set.  Otherwise it sets the flag, queries the active
giveaways whose `end_time` has passed, ends each of them in turn, and clears
the flag in the `finally` block.  `failAfter = some k` models the body raising
an error once `k` of the expired giveaways have been processed; the `finally`
clause still clears the flag on that path. -/
def check_giveaways (env : Env) (now : Nat) (rands : Nat → List Nat)
    (failAfter : Option Nat) (st : CogState) : CogState × List Effect :=
  if st.checking then (st, [])
  else
    (⟨(runEndAll env rands
        (match failAfter with
          | none => ((st.store.giveaways.filter
              (fun g => decide (g.end_time ≤ now) && g.status == "active")).map
              (fun g => g.message_id))
          | some k => ((st.store.giveaways.filter
              (fun g => decide (g.end_time ≤ now) && g.status == "active")).map
              (fun g => g.message_id)).take k)
        0 st.store).1, false⟩,
      (runEndAll env rands
        (match failAfter with
          | none => ((st.store.giveaways.filter
              (fun g => decide (g.end_time ≤ now) && g.status == "active")).map
              (fun g => g.message_id))
          | some k => ((st.store.giveaways.filter
              (fun g => decide (g.end_time ≤ now) && g.status == "active")).map
              (fun g => g.message_id)).take k)
        0 st.store).2)

/-- Every store-touching operation the cog exposes: an explicit `end_giveaway`
call (the scheduler and any manual force-end go through it), a scheduler tick,
the two reaction listeners, and `reroll_giveaway` - which performs no store
write at all, so it leaves the state unchanged. -/
inductive Op where
  | endG (rand : List Nat) (mid : Nat)
  | tick (now : Nat) (rands : Nat → List Nat) (failAfter : Option Nat)
  | add (p : Payload)
  | remove (p : Payload)
  | reroll (rand : List Nat) (hasRef origOk hasEmbed : Bool) (mid : Nat)

/-- Applies one operation to the cog state. -/
def applyOp (env : Env) (st : CogState) : Op → CogState
  | .endG rand mid => ⟨(end_giveaway env rand mid st.store).store, st.checking⟩
  | .tick now rands failAfter => (check_giveaways env now rands failAfter st).1
  | .add p => ⟨on_raw_reaction_add env p st.store, st.checking⟩
  | .remove p => ⟨on_raw_reaction_remove env p st.store, st.checking⟩
  | .reroll _ _ _ _ _ => st

/-- Applies a sequence of operations left to right. -/
def applyOps (env : Env) (st : CogState) (ops : List Op) : CogState :=
  ops.foldl (applyOp env) st

/-- Decidable form of "every giveaway document for this message id has status
`"ended"`" - which also holds vacuously when no document for the id exists. -/
def allEndedFor (mid : Nat) (s : Store) : Bool :=
  s.giveaways.all (fun g => g.message_id != mid || g.status == "ended")

/-- Concrete environment for the worked scenarios: the bot's user id is `0`,
every channel resolves and every message fetch succeeds. -/
def envW : Env := ⟨0, fun _ => true, fun _ => true⟩

/-- Concrete active giveaway: message id `1`, channel `10`, deadline `100`,
winner count `1`, hosted by user `2`. -/
def gW : GiveawayDoc := ⟨1, 10, 100, 1, "prize", "active", 2, 0⟩

/-- Concrete store: the active giveaway `gW` with participants `5` and `7`. -/
def sW : Store := ⟨[gW], [(1, 5), (1, 7)]⟩

/-- Concrete store holding only an already-ended giveaway and no entries. -/
def sEnded : Store := ⟨[{ gW with status := "ended" }], []⟩

/-- Concrete qualifying reaction payload: the giveaway emoji on message `1`
from user `5`. -/
def payloadW : Payload := ⟨REACTION_EMOJI, 1, 5⟩

/-- Concrete store: the giveaway `gW` already ended, with participants `5` and
`7` retained - exactly the store `end_giveaway` leaves behind on `sW`. -/
def sEndedFull : Store := ⟨[{ gW with status := "ended" }], [(1, 5), (1, 7)]⟩

/-- Concrete environment in which every message fetch raises
`discord.NotFound`. -/
def envNoMsg : Env := ⟨0, fun _ => true, fun _ => false⟩

/-- Sampling draws exactly `min k (length l)` elements. -/
theorem sample_length (k : Nat) :
    ∀ l rand : List Nat, (sample l k rand).length = min k l.length := by
  induction k with
  | zero => intro l rand; simp [sample]
  | succ k ih =>
      intro l rand
      cases l with
      | nil => simp [sample]
      | cons a t =>
          have hi : rand.headD 0 % (a :: t).length < (a :: t).length :=
            Nat.mod_lt _ (by simp)
          simp only [sample, List.length_cons, ih, List.length_eraseIdx]
          simp only [List.length_cons] at hi
          rw [if_pos hi]
          omega

/-- Every sampled element comes from the input list. -/
theorem sample_subset (k : Nat) :
    ∀ l rand : List Nat, sample l k rand ⊆ l := by
  induction k with
  | zero => intro l rand; simp [sample]
  | succ k ih =>
      intro l rand
      cases l with
      | nil => simp [sample]
      | cons a t =>
          have hi : rand.headD 0 % (a :: t).length < (a :: t).length :=
            Nat.mod_lt _ (by simp)
          intro x hx
          simp only [sample, List.mem_cons] at hx
          rcases hx with h | h
          · rw [List.getD_eq_getElem _ _ hi] at h
            exact h ▸ List.getElem_mem hi
          · exact (List.eraseIdx_sublist _ _).subset (ih _ _ h)

/-- Sampling from a duplicate-free list yields pairwise-distinct elements. -/
theorem sample_nodup (k : Nat) :
    ∀ l rand : List Nat, l.Nodup → (sample l k rand).Nodup := by
  induction k with
  | zero => intro l rand _; simp [sample]
  | succ k ih =>
      intro l rand hnd
      cases l with
      | nil => simp [sample]
      | cons a t =>
          have hi : rand.headD 0 % (a :: t).length < (a :: t).length :=
            Nat.mod_lt _ (by simp)
          simp only [sample, List.nodup_cons]
          refine ⟨?_, ih _ _ (List.Nodup.eraseIdx _ hnd)⟩
          intro hmem
          have hsub := sample_subset k _ rand.tail hmem
          rw [List.getD_eq_getElem _ _ hi] at hsub
          rw [← List.Nodup.erase_getElem hnd _ hi] at hsub
          exact List.Nodup.not_mem_erase hnd hsub

/-- C4: for every duplicate-free candidate set, winner count, and exclusion
set, `selectWinners` - the selection pattern used by `end_giveaway` and
`reroll_giveaway` - returns exactly `min count |candidates - exclude|`
pairwise-distinct elements, each drawn from `candidates - exclude` (hence none
from the exclusion set); an empty pool yields the empty list. -/
theorem C4_selectWinners_sampling_bound (candidates : List Nat) (count : Nat)
    (exclude rand : List Nat) (hnd : candidates.Nodup) :
    (selectWinners candidates count exclude rand).length
        = min count (candidates.filter (fun u => !exclude.contains u)).length ∧
    (selectWinners candidates count exclude rand).Nodup ∧
    selectWinners candidates count exclude rand
        ⊆ candidates.filter (fun u => !exclude.contains u) ∧
    (selectWinners candidates count exclude rand).Disjoint exclude ∧
    (candidates.filter (fun u => !exclude.contains u) = [] →
      selectWinners candidates count exclude rand = []) := by
  unfold selectWinners
  by_cases hp : (candidates.filter (fun u => !exclude.contains u)).isEmpty
  · rw [if_pos hp]
    rw [List.isEmpty_iff] at hp
    rw [hp]
    exact ⟨by simp, by simp, by simp, by simp [List.Disjoint], fun _ => rfl⟩
  · rw [if_neg hp]
    refine ⟨?_, ?_, ?_, ?_, ?_⟩
    · rw [sample_length]
      omega
    · exact sample_nodup _ _ _ (hnd.filter _)
    · exact sample_subset _ _ _
    · intro x hx hxe
      have hxp := sample_subset _ _ _ hx
      rw [List.mem_filter] at hxp
      simp only [Bool.not_eq_true'] at hxp
      exact absurd hxp.2 (by simpa using hxe)
    · intro h
      rw [List.isEmpty_iff] at hp
      exact absurd h hp

/-- Witness for C4: with candidates `[5, 7, 9]`, count `2` and exclusion `[7]`
the selection has the stated bound, distinctness, membership and disjointness;
and with candidates `[5]` excluded entirely the pool is empty and the result
is the empty list. -/
theorem C4_selectWinners_sampling_bound_witness :
    ((selectWinners [5, 7, 9] 2 [7] [0, 0]).length
        = min 2 (([5, 7, 9] : List Nat).filter (fun u => !([7] : List Nat).contains u)).length ∧
      (selectWinners [5, 7, 9] 2 [7] [0, 0]).Nodup ∧
      selectWinners [5, 7, 9] 2 [7] [0, 0]
          ⊆ ([5, 7, 9] : List Nat).filter (fun u => !([7] : List Nat).contains u) ∧
      (selectWinners [5, 7, 9] 2 [7] [0, 0]).Disjoint [7]) ∧
    selectWinners [5] 2 [5] [0] = [] := by
  refine ⟨?_, ?_⟩
  · have h := C4_selectWinners_sampling_bound [5, 7, 9] 2 [7] [0, 0] (by decide)
    exact ⟨h.1, h.2.1, h.2.2.1, h.2.2.2.1⟩
  · exact (C4_selectWinners_sampling_bound [5] 2 [5] [0] (by decide)).2.2.2.2 (by decide)

/-- The selection `end_giveaway` performs (line 170) is exactly `selectWinners`
over the participant snapshot with an empty exclusion set. -/
theorem end_winners_of_eq_selectWinners (env : Env) (rand : List Nat)
    (mid : Nat) (s : Store) (count : Nat) :
    end_winners_of env rand mid s count
      = selectWinners (list_entries env mid s) count [] rand := by
  unfold end_winners_of selectWinners
  simp [Nat.min_comm]

/-- C1: ending the active giveaway `gW` with participants `5` and `7` selects
the winner list `[5]`, yet the store after the call holds the original document
with only its status rewritten to `"ended"` - the selected winners appear in no
stored field, contradicting the claim that `status` and the winner list are
persisted together. -/
theorem C1_end_never_persists_winners :
    (end_giveaway envW [0] 1 sW).winners = [5] ∧
    (end_giveaway envW [0] 1 sW).store
        = ⟨[{ gW with status := "ended" }], [(1, 5), (1, 7)]⟩ := by
  decide

/-- C2: after ending `gW` (winner count `1`, participants `5` and `7`) with
the selection `[5]`, rerolling the very same stored state returns `some [5]`
again: the prior winner is re-picked because the code's exclusion query reads
the integer winner count, not the prior winners. -/
theorem C2_reroll_repicks_prior_winner :
    (end_giveaway envW [0] 1 sW).winners = [5] ∧
    reroll_giveaway envW [0] true true true 1 (end_giveaway envW [0] 1 sW).store
        = some [5] := by
  decide

/-- C3 counterexample: `sEnded` holds a single giveaway whose status is
`"ended"` and an empty entry set, yet processing a qualifying add-entry signal
inserts the entry `(1, 5)` - the signal is not a no-op after `Ended`. -/
theorem C3_add_after_ended_mutates :
    allEndedFor 1 sEnded = true ∧
    sEnded.participants = [] ∧
    (on_raw_reaction_add envW payloadW sEnded).participants = [(1, 5)] := by
  decide

/-- C3 (amended): the reaction listeners never consult the giveaway record, so
even when every stored giveaway for the message id is `"ended"` (in particular
when none exists) a qualifying add-entry signal still inserts an absent entry,
and a qualifying remove-entry signal still erases the first matching entry;
only a remove for an absent key leaves the store unchanged. -/
theorem C3_signals_unconditional (env : Env) (p : Payload) (s : Store)
    (hE : p.emoji = REACTION_EMOJI) (hU : p.user_id ≠ env.botId)
    (_hEnded : allEndedFor p.message_id s = true) :
    ((p.message_id, p.user_id) ∉ s.participants →
      (on_raw_reaction_add env p s).participants
        = s.participants ++ [(p.message_id, p.user_id)]) ∧
    (on_raw_reaction_remove env p s).participants
        = s.participants.erase (p.message_id, p.user_id) ∧
    ((p.message_id, p.user_id) ∉ s.participants →
      on_raw_reaction_remove env p s = s) := by
  have hcond : (p.emoji != REACTION_EMOJI || (p.user_id == env.botId)) = false := by
    simp [hE, hU]
  refine ⟨?_, ?_, ?_⟩
  · intro hmem
    rw [on_raw_reaction_add, hcond]
    simp [hmem]
  · rw [on_raw_reaction_remove, hcond]
    simp
  · intro hmem
    rw [on_raw_reaction_remove, hcond]
    simp [List.erase_of_not_mem (by simpa using hmem)]

/-- Witness for C3 (amended): on the concrete ended store `sEnded` with the
qualifying payload `payloadW`, the add inserts `(1, 5)` and the remove of the
absent key is the identity. -/
theorem C3_signals_unconditional_witness :
    (on_raw_reaction_add envW payloadW sEnded).participants
        = sEnded.participants ++ [(1, 5)] ∧
    (on_raw_reaction_remove envW payloadW sEnded).participants
        = sEnded.participants.erase (1, 5) ∧
    on_raw_reaction_remove envW payloadW sEnded = sEnded := by
  have h := C3_signals_unconditional envW payloadW sEnded (by decide) (by decide)
    (by decide)
  exact ⟨h.1 (by decide), h.2.1, h.2.2 (by decide)⟩

/-- Characterization of the status update: every document of the updated list
is either an untouched document of the original list, or an original document
for the targeted message id with its status rewritten to `"ended"`. -/
theorem mem_updateStatusFirst {gs : List GiveawayDoc} {mid : Nat}
    {g' : GiveawayDoc} (h : g' ∈ updateStatusFirst gs mid) :
    g' ∈ gs ∨ ∃ g ∈ gs, g.message_id = mid ∧ g' = { g with status := "ended" } := by
  induction gs with
  | nil => simp [updateStatusFirst] at h
  | cons g gs ih =>
      rw [updateStatusFirst] at h
      by_cases hc : g.message_id == mid
      · rw [if_pos hc] at h
        rcases List.mem_cons.mp h with h1 | h1
        · exact Or.inr ⟨g, List.mem_cons_self _ _, by simpa using hc, h1⟩
        · exact Or.inl (List.mem_cons_of_mem _ h1)
      · rw [if_neg hc] at h
        rcases List.mem_cons.mp h with h1 | h1
        · exact Or.inl (h1 ▸ List.mem_cons_self _ _)
        · rcases ih h1 with h2 | ⟨g0, hg0, hid, heq⟩
          · exact Or.inl (List.mem_cons_of_mem _ h2)
          · exact Or.inr ⟨g0, List.mem_cons_of_mem _ hg0, hid, heq⟩

/-- The Boolean `allEndedFor` coincides with the propositional statement that
every stored giveaway document for the message id has status `"ended"`. -/
theorem allEndedFor_iff (mid : Nat) (s : Store) :
    allEndedFor mid s = true
      ↔ ∀ g ∈ s.giveaways, g.message_id = mid → g.status = "ended" := by
  simp [allEndedFor, or_iff_not_imp_left]

/-- The status update can only set statuses to `"ended"`, so it preserves
"every document for `mid` is ended" - for updates aimed at any message id. -/
theorem updateStatusFirst_preserves_ended {mid : Nat} {gs : List GiveawayDoc}
    (h : ∀ g ∈ gs, g.message_id = mid → g.status = "ended") (mid' : Nat) :
    ∀ g' ∈ updateStatusFirst gs mid', g'.message_id = mid → g'.status = "ended" := by
  intro g' hg' hid
  rcases mem_updateStatusFirst hg' with h1 | ⟨g, hg, _, rfl⟩
  · exact h _ h1 hid
  · rfl

/-- No path of `end_giveaway` writes the participants collection. -/
theorem end_giveaway_participants (env : Env) (rand : List Nat) (mid : Nat)
    (s : Store) : (end_giveaway env rand mid s).store.participants = s.participants := by
  unfold end_giveaway
  split
  · rfl
  · split
    · rfl
    · split
      · rfl
      · rfl

/-- The giveaways collection after `end_giveaway` is either untouched or the
result of the single status update for the targeted message id. -/
theorem end_giveaway_giveaways (env : Env) (rand : List Nat) (mid : Nat)
    (s : Store) :
    (end_giveaway env rand mid s).store.giveaways = s.giveaways ∨
    (end_giveaway env rand mid s).store.giveaways = updateStatusFirst s.giveaways mid := by
  unfold end_giveaway
  split
  · exact Or.inl rfl
  · split
    · exact Or.inl rfl
    · split
      · exact Or.inr rfl
      · exact Or.inr rfl

/-- `end_giveaway` preserves "every document for `mid0` is ended". -/
theorem end_giveaway_preserves_ended {env : Env} {rand : List Nat}
    {mid0 mid : Nat} {s : Store}
    (h : ∀ g ∈ s.giveaways, g.message_id = mid0 → g.status = "ended") :
    ∀ g' ∈ (end_giveaway env rand mid s).store.giveaways,
      g'.message_id = mid0 → g'.status = "ended" := by
  rcases end_giveaway_giveaways env rand mid s with he | he <;> rw [he]
  · exact h
  · exact updateStatusFirst_preserves_ended h mid

/-- The scheduler loop over any list of message ids preserves "every document
for `mid0` is ended". -/
theorem runEndAll_preserves_ended (env : Env) (rands : Nat → List Nat)
    (mid0 : Nat) :
    ∀ (mids : List Nat) (i : Nat) (s : Store),
      (∀ g ∈ s.giveaways, g.message_id = mid0 → g.status = "ended") →
      ∀ g' ∈ (runEndAll env rands mids i s).1.giveaways,
        g'.message_id = mid0 → g'.status = "ended" := by
  intro mids
  induction mids with
  | nil => intro i s h; exact h
  | cons mid rest ih =>
      intro i s h
      exact ih (i+1) _ (end_giveaway_preserves_ended h)

/-- Neither reaction listener writes the giveaways collection. -/
theorem reaction_giveaways (env : Env) (p : Payload) (s : Store) :
    (on_raw_reaction_add env p s).giveaways = s.giveaways ∧
    (on_raw_reaction_remove env p s).giveaways = s.giveaways := by
  constructor
  · unfold on_raw_reaction_add
    split
    · rfl
    · split
      · rfl
      · rfl
  · unfold on_raw_reaction_remove
    split
    · rfl
    · rfl

/-- Each exposed operation preserves "every document for `mid` is ended". -/
theorem applyOp_preserves_ended {env : Env} {mid : Nat} {st : CogState}
    (h : ∀ g ∈ st.store.giveaways, g.message_id = mid → g.status = "ended")
    (op : Op) :
    ∀ g' ∈ (applyOp env st op).store.giveaways,
      g'.message_id = mid → g'.status = "ended" := by
  cases op with
  | endG rand m => exact end_giveaway_preserves_ended h
  | tick now rands failAfter =>
      show ∀ g' ∈ (check_giveaways env now rands failAfter st).1.store.giveaways, _
      unfold check_giveaways
      by_cases hc : st.checking
      · rw [if_pos hc]; exact h
      · rw [if_neg hc]
        exact runEndAll_preserves_ended env rands mid _ 0 st.store h
  | add p => exact (reaction_giveaways env p st.store).1 ▸ h
  | remove p => exact (reaction_giveaways env p st.store).2 ▸ h
  | reroll rand hr ho he m => exact h

/-- C5: once every stored giveaway document for a message id is `"ended"`, no
sequence of further `end_giveaway` calls, scheduler ticks, reaction add/remove
signals, or rerolls ever brings a document for that id back to any other
status - `Ended` is terminal under every operation the cog exposes. -/
theorem C5_ended_is_terminal (env : Env) (mid : Nat) (ops : List Op)
    (st : CogState) (h : allEndedFor mid st.store = true) :
    allEndedFor mid (applyOps env st ops).store = true := by
  rw [allEndedFor_iff] at h ⊢
  induction ops generalizing st with
  | nil => exact h
  | cons op rest ih => exact ih (applyOp env st op) (applyOp_preserves_ended h op)

/-- Witness for C5: starting from the ended store `sEnded`, an add signal, a
tick, a manual `end_giveaway`, a remove signal and a reroll leave the document
ended. -/
theorem C5_ended_is_terminal_witness :
    allEndedFor 1 (applyOps envW ⟨sEnded, false⟩
      [Op.add payloadW, Op.tick 200 (fun _ => [0]) none, Op.endG [0] 1,
        Op.remove payloadW, Op.reroll [0] true true true 1]).store = true := by
  exact C5_ended_is_terminal envW 1 _ _ (by decide)

/-- C6: a tick that starts while the in-progress flag is set returns
immediately with no store change and no announcement traffic (so an expired
event set is processed by at most one of two racing ticks); and a tick that
does run - including one whose body fails after any number of processed
events (`failAfter`) - always leaves the flag cleared. -/
theorem C6_tick_mutual_exclusion (env : Env) (now : Nat) (rands : Nat → List Nat)
    (failAfter : Option Nat) (st : CogState) :
    (st.checking = true → check_giveaways env now rands failAfter st = (st, [])) ∧
    (st.checking = false →
      (check_giveaways env now rands failAfter st).1.checking = false) := by
  constructor
  · intro h
    unfold check_giveaways
    rw [if_pos h]
  · intro h
    unfold check_giveaways
    rw [if_neg (by simp [h])]

/-- Witness for C6: with the flag set the concrete tick is the identity with no
effects; with the flag clear, a tick whose body fails immediately still clears
the flag. -/
theorem C6_tick_mutual_exclusion_witness :
    check_giveaways envW 200 (fun _ => [0]) (some 0) ⟨sW, true⟩ = (⟨sW, true⟩, []) ∧
    (check_giveaways envW 200 (fun _ => [0]) (some 0) ⟨sW, false⟩).1.checking
      = false := by
  refine ⟨?_, ?_⟩
  · exact (C6_tick_mutual_exclusion envW 200 (fun _ => [0]) (some 0) ⟨sW, true⟩).1 rfl
  · exact (C6_tick_mutual_exclusion envW 200 (fun _ => [0]) (some 0) ⟨sW, false⟩).2 rfl

/-- C7: under the participants collection's unique compound index (at most one
document per key), processing two qualifying add signals for the same
`(message_id, user_id)` key leaves exactly one stored document for that key,
and processing a qualifying remove signal for an absent key leaves the store
unchanged. -/
theorem C7_add_idempotent_remove_total (env : Env) (p : Payload) (s : Store)
    (hE : p.emoji = REACTION_EMOJI) (hU : p.user_id ≠ env.botId)
    (hIdx : s.participants.count (p.message_id, p.user_id) ≤ 1) :
    (on_raw_reaction_add env p (on_raw_reaction_add env p s)).participants.count
        (p.message_id, p.user_id) = 1 ∧
    ((p.message_id, p.user_id) ∉ s.participants →
      on_raw_reaction_remove env p s = s) := by
  have hcond : (p.emoji != REACTION_EMOJI || (p.user_id == env.botId)) = false := by
    simp [hE, hU]
  have hadd_mem : ∀ t : Store, (p.message_id, p.user_id) ∈ t.participants →
      on_raw_reaction_add env p t = t := by
    intro t hm
    rw [on_raw_reaction_add, hcond]
    simp [hm]
  have hadd_new : ∀ t : Store, (p.message_id, p.user_id) ∉ t.participants →
      on_raw_reaction_add env p t
        = { t with participants := t.participants ++ [(p.message_id, p.user_id)] } := by
    intro t hm
    rw [on_raw_reaction_add, hcond]
    simp [hm]
  constructor
  · by_cases hm : (p.message_id, p.user_id) ∈ s.participants
    · rw [hadd_mem s hm, hadd_mem s hm]
      have hpos : 0 < s.participants.count (p.message_id, p.user_id) :=
        List.count_pos_iff.mpr hm
      omega
    · rw [hadd_new s hm]
      rw [hadd_mem _ (by simp)]
      have hzero : s.participants.count (p.message_id, p.user_id) = 0 :=
        List.count_eq_zero.mpr hm
      simp [List.count_append, hzero]
  · intro hm
    rw [on_raw_reaction_remove, hcond]
    simp [List.erase_of_not_mem (by simpa using hm)]

/-- Witness for C7: two qualifying adds of `(1, 5)` to the empty participants
collection of `sEnded` leave one document, and removing the absent `(1, 5)` is
the identity. -/
theorem C7_add_idempotent_remove_total_witness :
    (on_raw_reaction_add envW payloadW
        (on_raw_reaction_add envW payloadW sEnded)).participants.count (1, 5) = 1 ∧
    on_raw_reaction_remove envW payloadW sEnded = sEnded := by
  have h := C7_add_idempotent_remove_total envW payloadW sEnded (by decide)
    (by decide) (by decide)
  exact ⟨h.1, h.2 (by decide)⟩

/-- C8: when every stored giveaway document for the message id is already
`"ended"`, `end_giveaway` is a complete no-op: the store is returned unchanged,
no winner is selected, and no announcement traffic is emitted - which makes
ending idempotent under a scheduler/manual force-end race. -/
theorem C8_end_on_ended_is_noop (env : Env) (rand : List Nat) (mid : Nat)
    (s : Store) (h : allEndedFor mid s = true) :
    end_giveaway env rand mid s = ⟨s, [], []⟩ := by
  rw [allEndedFor_iff] at h
  have hfind : s.giveaways.find?
      (fun g => g.message_id == mid && g.status == "active") = none := by
    rw [List.find?_eq_none]
    intro g hg
    by_cases hid : g.message_id = mid
    · have hst := h g hg hid
      simp [hid, hst]
    · simp [hid]
  unfold end_giveaway
  rw [hfind]

/-- Witness for C8: ending the already-ended giveaway of `sEnded` returns the
store unchanged with no effects and no winners. -/
theorem C8_end_on_ended_is_noop_witness :
    end_giveaway envW [0] 1 sEnded = ⟨sEnded, [], []⟩ :=
  C8_end_on_ended_is_noop envW [0] 1 sEnded (by decide)

/-- The bot's own user id survives neither filter of the participant
snapshot. -/
theorem bot_not_mem_list_entries (env : Env) (mid : Nat) (s : Store) :
    env.botId ∉ list_entries env mid s := by
  intro h
  unfold list_entries at h
  rcases List.mem_map.mp h with ⟨p, hp, hsnd⟩
  rw [List.mem_filter] at hp
  rw [bne_iff_ne] at hp
  exact hp.2 hsnd

/-- Winners selected by `end_giveaway` all come from the participant
snapshot. -/
theorem end_winners_subset (env : Env) (rand : List Nat) (mid : Nat)
    (s : Store) : (end_giveaway env rand mid s).winners ⊆ list_entries env mid s := by
  unfold end_giveaway
  split
  · simp
  · split
    · simp
    · split
      · simp
      · show end_winners_of env rand mid s _ ⊆ _
        unfold end_winners_of
        split
        · simp
        · exact sample_subset _ _ _

/-- Winners returned by `reroll_giveaway` all come from the participant
snapshot. -/
theorem reroll_winners_subset (env : Env) (rand : List Nat)
    (hasRef origOk hasEmbed : Bool) (mid : Nat) (s : Store) (w : List Nat)
    (h : reroll_giveaway env rand hasRef origOk hasEmbed mid s = some w) :
    w ⊆ list_entries env mid s := by
  unfold reroll_giveaway at h
  split at h
  · exact absurd h (by simp)
  · split at h
    · exact absurd h (by simp)
    · split at h
      · exact absurd h (by simp)
      · split at h
        · exact absurd h (by simp)
        · split at h
          · exact absurd h (by simp)
          · rw [Option.some_inj] at h
            intro x hx
            rw [← h] at hx
            have hx2 := sample_subset _ _ _ hx
            exact (List.mem_filter.mp hx2).1

/-- C9: the engine's own identity is never eligible: it does not occur in the
participant snapshot for any store, hence in no winner list produced by
`end_giveaway`, and in no winner list returned by `reroll_giveaway`. -/
theorem C9_bot_never_eligible (env : Env) (rand : List Nat)
    (hasRef origOk hasEmbed : Bool) (mid : Nat) (s : Store) (w : List Nat) :
    env.botId ∉ list_entries env mid s ∧
    env.botId ∉ (end_giveaway env rand mid s).winners ∧
    (reroll_giveaway env rand hasRef origOk hasEmbed mid s = some w →
      env.botId ∉ w) := by
  refine ⟨bot_not_mem_list_entries env mid s, ?_, ?_⟩
  · intro h
    exact bot_not_mem_list_entries env mid s (end_winners_subset env rand mid s h)
  · intro hre h
    exact bot_not_mem_list_entries env mid s
      (reroll_winners_subset env rand hasRef origOk hasEmbed mid s w hre h)

/-- Witness for C9: on the concrete ended store with participants `5` and `7`,
the bot id `0` is in no entry snapshot, no end-winner list, and not in the
reroll result `[5]`. -/
theorem C9_bot_never_eligible_witness :
    envW.botId ∉ list_entries envW 1 sEndedFull ∧
    envW.botId ∉ (end_giveaway envW [0] 1 sEndedFull).winners ∧
    envW.botId ∉ ([5] : List Nat) := by
  have h := C9_bot_never_eligible envW [0] true true true 1 sEndedFull [5]
  exact ⟨h.1, h.2.1, h.2.2 (by decide)⟩

/-- Rewriting the status of a document changes no other field, so every
status-blind projection of the collection is preserved by the update. -/
theorem updateStatusFirst_map {β : Type} (f : GiveawayDoc → β)
    (hf : ∀ g, f { g with status := "ended" } = f g) :
    ∀ (gs : List GiveawayDoc) (mid : Nat),
      (updateStatusFirst gs mid).map f = gs.map f := by
  intro gs mid
  induction gs with
  | nil => rfl
  | cons g gs ih =>
      rw [updateStatusFirst]
      by_cases hc : g.message_id == mid
      · rw [if_pos hc]
        simp [hf]
      · rw [if_neg hc]
        simp [ih]

/-- When some document for the message id exists, the update leaves a document
for that id with status `"ended"` in the collection. -/
theorem updateStatusFirst_any {gs : List GiveawayDoc} {mid : Nat}
    (h : ∃ g ∈ gs, g.message_id = mid) :
    (updateStatusFirst gs mid).any
      (fun g' => g'.message_id == mid && g'.status == "ended") = true := by
  induction gs with
  | nil =>
      rcases h with ⟨g, hg, _⟩
      simp at hg
  | cons g gs ih =>
      rw [updateStatusFirst]
      by_cases hc : g.message_id == mid
      · rw [if_pos hc]
        simp [List.any_cons, hc]
      · rw [if_neg hc]
        rcases h with ⟨g0, hg0, hid⟩
        rcases List.mem_cons.mp hg0 with heq | hmem
        · exact absurd (by simp [heq ▸ hid]) hc
        · simp [List.any_cons, ih ⟨g0, hmem, hid⟩]

/-- C10: when `end_giveaway` finds an active document but the announcement
message no longer exists, it ends the event and does nothing else: no winner
is selected, no announcement is edited or posted, the participants collection
is untouched, the giveaways collection undergoes exactly the one status
update - every status-blind field projection is preserved - and the stored
document for the id now reads `"ended"`.  No winner list is written anywhere,
so such an event ends with no winners recorded. -/
theorem C10_message_gone_ends_with_nothing_else (env : Env) (rand : List Nat)
    (mid : Nat) (s : Store) (g : GiveawayDoc)
    (hfind : s.giveaways.find?
      (fun g => g.message_id == mid && g.status == "active") = some g)
    (hch : env.channelExists g.channel_id = true)
    (hmsg : env.messageExists mid = false) :
    (end_giveaway env rand mid s).winners = [] ∧
    (end_giveaway env rand mid s).effects = [] ∧
    (end_giveaway env rand mid s).store.participants = s.participants ∧
    (end_giveaway env rand mid s).store.giveaways
        = updateStatusFirst s.giveaways mid ∧
    (end_giveaway env rand mid s).store.giveaways.map GiveawayDoc.message_id
        = s.giveaways.map GiveawayDoc.message_id ∧
    (end_giveaway env rand mid s).store.giveaways.map GiveawayDoc.channel_id
        = s.giveaways.map GiveawayDoc.channel_id ∧
    (end_giveaway env rand mid s).store.giveaways.map GiveawayDoc.end_time
        = s.giveaways.map GiveawayDoc.end_time ∧
    (end_giveaway env rand mid s).store.giveaways.map GiveawayDoc.winners
        = s.giveaways.map GiveawayDoc.winners ∧
    (end_giveaway env rand mid s).store.giveaways.map GiveawayDoc.prize
        = s.giveaways.map GiveawayDoc.prize ∧
    (end_giveaway env rand mid s).store.giveaways.map GiveawayDoc.host_id
        = s.giveaways.map GiveawayDoc.host_id ∧
    (end_giveaway env rand mid s).store.giveaways.map GiveawayDoc.created_at
        = s.giveaways.map GiveawayDoc.created_at ∧
    (end_giveaway env rand mid s).store.giveaways.any
        (fun g' => g'.message_id == mid && g'.status == "ended") = true := by
  have hres : end_giveaway env rand mid s
      = ⟨{ s with giveaways := updateStatusFirst s.giveaways mid }, [], []⟩ := by
    unfold end_giveaway
    rw [hfind]
    simp [hch, hmsg]
  have hmem : g ∈ s.giveaways := List.mem_of_find?_eq_some hfind
  have hpred := List.find?_some hfind
  rw [Bool.and_eq_true, beq_iff_eq] at hpred
  rw [hres]
  refine ⟨rfl, rfl, rfl, rfl, ?_, ?_, ?_, ?_, ?_, ?_, ?_, ?_⟩
  · exact updateStatusFirst_map GiveawayDoc.message_id (fun _ => rfl) _ _
  · exact updateStatusFirst_map GiveawayDoc.channel_id (fun _ => rfl) _ _
  · exact updateStatusFirst_map GiveawayDoc.end_time (fun _ => rfl) _ _
  · exact updateStatusFirst_map GiveawayDoc.winners (fun _ => rfl) _ _
  · exact updateStatusFirst_map GiveawayDoc.prize (fun _ => rfl) _ _
  · exact updateStatusFirst_map GiveawayDoc.host_id (fun _ => rfl) _ _
  · exact updateStatusFirst_map GiveawayDoc.created_at (fun _ => rfl) _ _
  · exact updateStatusFirst_any ⟨g, hmem, hpred.1⟩

/-- Witness for C10: in the environment where every message fetch fails,
ending the active giveaway of `sW` flips its status and changes nothing
else. -/
theorem C10_message_gone_ends_with_nothing_else_witness :
    (end_giveaway envNoMsg [0] 1 sW).winners = [] ∧
    (end_giveaway envNoMsg [0] 1 sW).effects = [] ∧
    (end_giveaway envNoMsg [0] 1 sW).store.participants = sW.participants ∧
    (end_giveaway envNoMsg [0] 1 sW).store.giveaways
        = updateStatusFirst sW.giveaways 1 ∧
    (end_giveaway envNoMsg [0] 1 sW).store.giveaways.any
        (fun g' => g'.message_id == 1 && g'.status == "ended") = true := by
  have h := C10_message_gone_ends_with_nothing_else envNoMsg [0] 1 sW gW
    (by decide) rfl rfl
  exact ⟨h.1, h.2.1, h.2.2.1, h.2.2.2.1, h.2.2.2.2.2.2.2.2.2.2.2⟩

end GiveawayBot
